import Mathlib

/-!
Shallow embedding of trtools/statSTR/statSTR.py (the statSTR locus
statistic engine) and proofs about the claims of its specification.

Python floats are modeled as exact rationals (`Rat`), with IEEE NaN made
explicit as the `none` of an `Option`.  Collaborators that live outside
this repository's source tree (trtools.utils.tr_harmonizer and
trtools.utils.utils) are modelled from the spec, as marked in their doc
comments.  Mutation of the shared `samplelists` Python list is made
explicit by state passing: each statistic computer returns both its
values and the list object as the caller sees it afterwards.
-/

namespace StatSTR

/-- One allele call: its exact repeat sequence and its length in repeat
units (a rational, since partial units are possible). -/
structure Allele where
  seq : String
  len : Rat
deriving DecidableEq

/-- A harmonized TR record: coordinates, reference allele, motif, and the
per-sample genotype calls (`none` = missing / not fully called). -/
structure TRRecord where
  chrom : String
  pos : Int
  refAllele : String
  motif : String
  samples : List (String × Option (Allele × Allele))
deriving DecidableEq

/-- An optional sample filter: `none` means all samples. -/
abbrev SampleList := Option (List String)

/-- Whether a sample name passes a filter. -/
def inFilter (sl : SampleList) (name : String) : Bool :=
  match sl with
  | none => true
  | some l => l.contains name

/-- Modelled from the spec: the harmonizer's genotype access (spec 4.1) —
the fully-called genotypes of the samples passing the filter; samples with
a missing or incomplete call are excluded entirely. -/
def calledPairs (rec : TRRecord) (sl : SampleList) : List (Allele × Allele) :=
  (rec.samples.filter (fun p => inFilter sl p.1)).filterMap Prod.snd

/-- The observed allele keys in length-collapsed mode: both alleles of
every called genotype, keyed by numeric length. -/
def lenObs (rec : TRRecord) (sl : SampleList) : List Rat :=
  (calledPairs rec sl).flatMap (fun g => [g.1.len, g.2.len])

/-- The observed allele keys in exact-sequence mode. -/
def seqObs (rec : TRRecord) (sl : SampleList) : List String :=
  (calledPairs rec sl).flatMap (fun g => [g.1.seq, g.2.seq])

/-- Modelled from the spec: the AlleleDistribution counts (spec section 3
and 4.1) — the count of each observed key; only keys with a positive count
appear. -/
def keyCounts {K : Type} [DecidableEq K] (obs : List K) : List (K × Nat) :=
  obs.dedup.map (fun k => (k, obs.count k))

/-- Modelled from the spec: the derived frequencies, count over total. -/
def freqsOf {K : Type} [DecidableEq K] (obs : List K) : List (K × Rat) :=
  (keyCounts obs).map (fun kc => (kc.1, Rat.divInt (kc.2 : Int) (obs.length : Int)))

/-- Modelled from the spec: GenotypeCount keys (spec section 3) — each
called genotype as an unordered pair of keys, normalized ascending. -/
def genotypePairs {K : Type} [LinearOrder K] (key : Allele → K)
    (rec : TRRecord) (sl : SampleList) : List (K × K) :=
  (calledPairs rec sl).map (fun g =>
    if key g.1 ≤ key g.2 then (key g.1, key g.2) else (key g.2, key g.1))

/-- The total of the genotype counts in the given representation mode. -/
def numCalledSum (uselength : Bool) (rec : TRRecord) (sl : SampleList) : Nat :=
  if uselength then
    ((keyCounts (genotypePairs (fun a => a.len) rec sl)).map Prod.snd).sum
  else
    ((keyCounts (genotypePairs (fun a => a.seq) rec sl)).map Prod.snd).sum

/-- The undefined float sentinel: `none` models IEEE NaN. -/
abbrev FloatVal := Option Rat

/-- Divide and round to the nearest natural, ties to even: the rounding
CPython uses when formatting floats to a decimal string. -/
def rheDivNat (a b : Nat) : Nat :=
  let q := a / b
  let r := a % b
  if 2 * r < b then q
  else if b < 2 * r then q + 1
  else if q % 2 = 0 then q else q + 1

/-- Base-ten logarithm of a natural number (fuel-driven so that it
computes by structural recursion). -/
def natLog10Fuel : Nat → Nat → Nat
  | 0, _ => 0
  | fuel + 1, n => if n < 10 then 0 else natLog10Fuel fuel (n / 10) + 1

/-- The number of decimal digits of n, minus one. -/
def natLog10 (n : Nat) : Nat := natLog10Fuel n n

/-- Pad a digit string on the left with zeros up to width n. -/
def padLeftZeros (s : String) (n : Nat) : String :=
  String.mk (List.replicate (n - s.length) '0') ++ s

/-- Drop trailing zero characters. -/
def stripZeros (s : List Char) : List Char :=
  (s.reverse.dropWhile (fun c => c = '0')).reverse

/-- Python printf-style fixed formatting of a float at p decimal places
(the source's percent-dot-3-f in GetAFreq): round to p decimals and print
exactly p digits after the point.  The sign is kept even when the rounded
magnitude is zero, as CPython does. -/
def formatFixedF (p : Nat) (q : Rat) : String :=
  let n := rheDivNat (q.num.natAbs * 10 ^ p) q.den
  let signStr := if q.num < 0 then "-" else ""
  if p = 0 then signStr ++ toString n
  else
    signStr ++ toString (n / 10 ^ p) ++ "." ++
      padLeftZeros (toString (n % 10 ^ p)) p

/-- The decimal exponent of the positive fraction n over d: the unique e
with 10 ^ e ≤ n / d < 10 ^ (e + 1).  Returns 0 when n is zero (never used
there). -/
def decExpND (n d : Nat) : Int :=
  if d ≤ n then (natLog10 (n / d) : Int)
  else -((natLog10 ((d + n - 1) / n - 1) : Int) + 1)

/-- Fixed-notation assembly: sign, integer part, a point, fractional part. -/
def withPoint (signStr ipart fpart : String) : String :=
  signStr ++ ipart ++ "." ++ fpart

/-- Scientific-notation assembly as CPython prints it: mantissa, the letter
e, an explicit exponent sign and an at-least-two-digit exponent. -/
def withExp (signStr mant : String) (e : Int) : String :=
  signStr ++ mant ++ "e" ++ (if e < 0 then "-" else "+") ++
    padLeftZeros (toString e.natAbs) 2

/-- The branch of CPython general float formatting after the significant
digits d (exactly p characters) and the decimal exponent e are known:
fixed notation with trailing zeros stripped when -4 ≤ e < p - 1 (with a
trailing dot-zero restored when nothing remains after the point),
scientific notation otherwise.  The p - 1 threshold (rather than the p of
a plain g presentation) is what CPython applies when the presentation
type is omitted. -/
def pyGeneralCore (p : Nat) (signStr d : String) (e : Int) : String :=
  if -4 ≤ e ∧ e < (p : Int) - 1 then
    let ipart := if 0 ≤ e then d.take (e.toNat + 1) else "0"
    let fpart :=
      if 0 ≤ e then d.toList.drop (e.toNat + 1)
      else List.replicate (-(e + 1)).toNat '0' ++ d.toList
    let f := stripZeros fpart
    withPoint signStr ipart (if f = [] then "0" else String.mk f)
  else
    let rest := stripZeros (d.toList.drop 1)
    withExp signStr
      (d.take 1 ++ (if rest = [] then "" else "." ++ String.mk rest)) e

/-- CPython str.format presentation of a float under a bare precision
(the source's precision_format, a tab followed by a format spec of a dot
and the precision with no presentation type): round to p significant
digits and render per pyGeneralCore.  Floats are modeled as exact
rationals. -/
def pyGeneral (pIn : Nat) (q : Rat) : String :=
  let p := max pIn 1
  if q.num = 0 then "0.0"
  else
    let signStr := if q.num < 0 then "-" else ""
    let n := q.num.natAbs
    let d := q.den
    let e0 := decExpND n d
    let s := e0 - (p : Int) + 1
    let m0 :=
      if 0 ≤ s then rheDivNat n (d * 10 ^ s.toNat)
      else rheDivNat (n * 10 ^ (-s).toNat) d
    let carried := m0 = 10 ^ p
    let m := if carried then 10 ^ (p - 1) else m0
    let e := if carried then e0 + 1 else e0
    pyGeneralCore p signStr (padLeftZeros (toString m) p) e

/-- Python str of a float, used by the percent-s display of length allele
keys in GetAFreq: for a rational with a finite decimal expansion this is
the exact expansion with trailing zeros stripped and at least one digit
after the point; other rationals (never reached by the concrete records
considered here) fall back to 17-significant-digit general notation. -/
def showPyFloat (q : Rat) : String :=
  match (List.range 31).find? (fun k => 10 ^ k % q.den = 0) with
  | some k =>
    let n := q.num.natAbs * 10 ^ k / q.den
    let signStr := if q.num < 0 then "-" else ""
    let f := stripZeros (padLeftZeros (toString (n % 10 ^ k)) k).toList
    withPoint signStr (toString (n / 10 ^ k)) (if f = [] then "0" else String.mk f)
  | none => pyGeneral 17 q

/-- Source format_nan_precision (statSTR.py lines 409-413): a tab then the
bare word nan for NaN, else the value through precision_format — a tab
followed by bare-precision general formatting (main line 466). -/
def format_nan_precision (precision : Nat) (val : FloatVal) : String :=
  match val with
  | none => "\tnan"
  | some v => "\t" ++ pyGeneral precision v

/-- The text of one float field as it lands between tab delimiters: what
format_nan_precision writes, without the leading tab it prepends. -/
def fieldOfFloat (precision : Nat) (val : FloatVal) : String :=
  match val with
  | none => "nan"
  | some v => pyGeneral precision v

/-- The in-place normalization the Python computers perform on their
samplelists argument: an empty list has None appended to it (mutating the
caller's object), a non-empty list is left alone. -/
def normLists (lists : List SampleList) : List SampleList :=
  if lists = [] then [none] else lists

/-- Modelled from the spec: tr_harmonizer GetMaxAllele — the maximum
observed allele length, or the NaN sentinel when nothing is called. -/
def getMaxAllele (rec : TRRecord) (sl : SampleList) : FloatVal :=
  match lenObs rec sl with
  | [] => none
  | x :: xs => some (xs.foldl max x)

/-- Source GetThresh (lines 97-116): one maximum per sample group.  An
empty samplelists is handled directly, without the append-None mutation
the other computers perform. -/
def GetThresh (rec : TRRecord) (lists : List SampleList) : List FloatVal :=
  if lists.length = 0 then [getMaxAllele rec none]
  else lists.map (getMaxAllele rec)

/-- Source GetAFreq inner rendering (lines 147-158): the sorted keys of
one group's distribution as key-colon-value tokens joined by commas; an
empty distribution renders as the single dot marker. -/
def renderTable {K : Type} [LinearOrder K] (shw : K → String)
    (valOf : Nat → Nat → String) (obs : List K) : String :=
  if obs.dedup = [] then "."
  else
    String.intercalate ","
      ((List.insertionSort (fun a b => a ≤ b) obs.dedup).map
        (fun k => shw k ++ ":" ++ valOf (obs.count k) obs.length))

/-- One group's field of GetAFreq: counts as percent-i integers, or
frequencies at the hard-coded three-decimal percent-f precision. -/
def afreqField (rec : TRRecord) (sl : SampleList) (cnt uselength : Bool) :
    String :=
  if cnt then
    if uselength then
      renderTable showPyFloat (fun c _ => toString c) (lenObs rec sl)
    else
      renderTable (fun s => s) (fun c _ => toString c) (seqObs rec sl)
  else
    if uselength then
      renderTable showPyFloat
        (fun c n => formatFixedF 3 (Rat.divInt (c : Int) (n : Int))) (lenObs rec sl)
    else
      renderTable (fun s => s)
        (fun c n => formatFixedF 3 (Rat.divInt (c : Int) (n : Int))) (seqObs rec sl)

/-- Source GetAFreq (lines 118-159), with the in-place append-None on an
empty samplelists made explicit: returns the rendered field per group and
the samplelists object as the caller sees it afterwards. -/
def GetAFreqS (rec : TRRecord) (lists : List SampleList)
    (cnt uselength : Bool) : List String × List SampleList :=
  let ls := normLists lists
  (ls.map (fun sl => afreqField rec sl cnt uselength), ls)

/-- Modelled from the spec: utils.GetHeterozygosity — one minus the sum of
squared frequencies; the empty distribution yields the sentinel. -/
def getHeterozygosity {K : Type} (freqs : List (K × Rat)) : FloatVal :=
  if freqs.isEmpty then none
  else some (1 - (freqs.map (fun kf => kf.2 * kf.2)).sum)

/-- Modelled from the spec: utils.GetEntropy — the bit entropy of the
distribution, terms with zero probability omitted; the empty distribution
yields the sentinel.  Entropy needs a base-two logarithm, which is not a
rational function; the embedding is parametric in its implementation
log2Q, and no claim depends on its values. -/
def getEntropyU {K : Type} (log2Q : Rat → Rat) (freqs : List (K × Rat)) :
    FloatVal :=
  if freqs.isEmpty then none
  else
    some (-(((freqs.filter (fun kf => 0 < kf.2)).map
        (fun kf => kf.2 * log2Q kf.2)).sum))

/-- Modelled from the spec: utils.GetMean — the frequency-weighted mean of
the numeric allele values; the empty distribution yields the sentinel. -/
def getMeanU (freqs : List (Rat × Rat)) : FloatVal :=
  if freqs = [] then none
  else some ((freqs.map (fun kf => kf.1 * kf.2)).sum)

/-- Modelled from the spec: utils.GetMode — an allele value of maximum
frequency, the smallest winning a tie; the empty distribution yields the
sentinel. -/
def getModeU (freqs : List (Rat × Rat)) : FloatVal :=
  match List.insertionSort (fun a b : Rat × Rat => a.1 ≤ b.1) freqs with
  | [] => none
  | x :: xs =>
    some ((xs.foldl (fun best kf => if best.2 < kf.2 then kf else best) x).1)

/-- Modelled from the spec: utils.GetVariance — the frequency-weighted
squared deviation from the mean; the empty distribution yields the
sentinel. -/
def getVarianceU (freqs : List (Rat × Rat)) : FloatVal :=
  if freqs = [] then none
  else
    let m := (freqs.map (fun kf => kf.1 * kf.2)).sum
    some ((freqs.map (fun kf => kf.2 * (kf.1 - m) * (kf.1 - m))).sum)

/-- Modelled from the spec: utils.GetHardyWeinbergBinomialTest — a
two-sided binomial test of the observed heterozygote count against the
heterozygosity expected from the frequencies; the sentinel when no
genotypes are called or when a called genotype's allele is missing from
the frequency table.  The p-value computation itself is abstracted as the
parameter binomTest (expected probability, heterozygote successes,
called-individual trials); no claim depends on its values. -/
def getHWEBinomialTest {K : Type} [DecidableEq K]
    (binomTest : Rat → Nat → Nat → Rat)
    (freqs : List (K × Rat)) (gcounts : List ((K × K) × Nat)) : FloatVal :=
  let n := (gcounts.map Prod.snd).sum
  let keys := freqs.map Prod.fst
  if n = 0 then none
  else if gcounts.any
      (fun gc => !(keys.contains gc.1.1) || !(keys.contains gc.1.2)) then
    none
  else
    let het := ((gcounts.filter (fun gc => gc.1.1 ≠ gc.1.2)).map Prod.snd).sum
    some (binomTest (1 - (freqs.map (fun kf => kf.2 * kf.2)).sum) het n)

/-- Source GetHWEP (lines 161-194), with the append-None mutation made
explicit. -/
def GetHWEPS (binomTest : Rat → Nat → Nat → Rat) (rec : TRRecord)
    (lists : List SampleList) (uselength : Bool) :
    List FloatVal × List SampleList :=
  let ls := normLists lists
  (ls.map (fun sl =>
    if uselength then
      getHWEBinomialTest binomTest (freqsOf (lenObs rec sl))
        (keyCounts (genotypePairs (fun a => a.len) rec sl))
    else
      getHWEBinomialTest binomTest (freqsOf (seqObs rec sl))
        (keyCounts (genotypePairs (fun a => a.seq) rec sl))), ls)

/-- Source GetHet (lines 196-224), with the append-None mutation made
explicit. -/
def GetHetS (rec : TRRecord) (lists : List SampleList) (uselength : Bool) :
    List FloatVal × List SampleList :=
  let ls := normLists lists
  (ls.map (fun sl =>
    if uselength then getHeterozygosity (freqsOf (lenObs rec sl))
    else getHeterozygosity (freqsOf (seqObs rec sl))), ls)

/-- Source GetEntropy (lines 226-256), with the append-None mutation made
explicit. -/
def GetEntropyS (log2Q : Rat → Rat) (rec : TRRecord)
    (lists : List SampleList) (uselength : Bool) :
    List FloatVal × List SampleList :=
  let ls := normLists lists
  (ls.map (fun sl =>
    if uselength then getEntropyU log2Q (freqsOf (lenObs rec sl))
    else getEntropyU log2Q (freqsOf (seqObs rec sl))), ls)

/-- Source GetMean (lines 258-280), with the append-None mutation made
explicit.  The uselength parameter is accepted but the inner
GetAlleleFreqs call hard-codes uselength as true (line 279). -/
def GetMeanS (rec : TRRecord) (lists : List SampleList) (uselength : Bool) :
    List FloatVal × List SampleList :=
  let ls := normLists lists
  (ls.map (fun sl => getMeanU (freqsOf (lenObs rec sl))), ls)

/-- Source GetMode (lines 282-309), with the append-None mutation made
explicit.  The uselength parameter is accepted but the inner
GetAlleleFreqs call hard-codes uselength as true (line 309). -/
def GetModeS (rec : TRRecord) (lists : List SampleList) (uselength : Bool) :
    List FloatVal × List SampleList :=
  let ls := normLists lists
  (ls.map (fun sl => getModeU (freqsOf (lenObs rec sl))), ls)

/-- Source GetVariance (lines 311-331), with the append-None mutation made
explicit.  The uselength parameter is accepted but the inner
GetAlleleFreqs call hard-codes uselength as true (line 331). -/
def GetVarianceS (rec : TRRecord) (lists : List SampleList)
    (uselength : Bool) : List FloatVal × List SampleList :=
  let ls := normLists lists
  (ls.map (fun sl => getVarianceU (freqsOf (lenObs rec sl))), ls)

/-- Source GetNumSamples (lines 333-350), with the append-None mutation
made explicit: per group, the sum of the genotype-count values.  The
harmonizer call uses its default representation mode, taken here as
length-collapsed; claim C9 shows the sum is the same in either mode. -/
def GetNumSamplesS (rec : TRRecord) (lists : List SampleList) :
    List Nat × List SampleList :=
  let ls := normLists lists
  (ls.map (fun sl => numCalledSum true rec sl), ls)

/-- Source GetHeader (lines 75-95): the column names of one statistic
block — the bare statistic name when no sample groups were requested, else
one dash-suffixed column per group label. -/
def GetHeader (h : String) (sample_prefixes : List String) : List String :=
  if sample_prefixes.length = 0 then [h]
  else sample_prefixes.map (fun sp => h ++ "-" ++ sp)

/-- Source MAXPLOTS (line 30): do not plot more than this many allele
frequency figures. -/
def MAXPLOTS : Nat := 10

/-- The command-line arguments main consumes (getargs output).  Optional
string arguments are None or a string, matching Python truthiness: the
empty string is falsy. -/
structure Args where
  samples : Option String
  sample_prefixes : Option String
  thresh : Bool
  afreq : Bool
  acount : Bool
  hwep : Bool
  het : Bool
  entropy : Bool
  mean : Bool
  mode : Bool
  var : Bool
  numcalled : Bool
  use_length : Bool
  plot_afreq : Bool
  precision : Nat
  out : String
deriving DecidableEq

/-- Python str.split on a single comma separator, by structural recursion
over the characters: the empty string yields one empty piece. -/
def splitCharsComma : List Char → List (List Char)
  | [] => [[]]
  | c :: cs =>
    if c = ',' then [] :: splitCharsComma cs
    else
      match splitCharsComma cs with
      | [] => [[c]]
      | g :: gs => (c :: g) :: gs

/-- Python str.split applied to a comma, as main does for --samples and
--sample-prefixes. -/
def splitComma (s : String) : List String :=
  (splitCharsComma s.data).map String.mk

/-- The group labels: the comma-split --sample-prefixes when supplied
non-empty, else the default numeric sequence 1, 2, ... up to the number
of sample files (main lines 435-438). -/
def configPrefs (args : Args) (k : Nat) : List String :=
  match args.sample_prefixes with
  | some p =>
    if p = "" then (List.range k).map (fun i => toString (i + 1))
    else splitComma p
  | none => (List.range k).map (fun i => toString (i + 1))

/-- Source main lines 430-443: sample-group loading.  The sample-file
loader (spec section 6, modelled from the spec) is the parameter mapping a
file path to its stripped sample-ID lines.  None signals the
configuration error of mismatched --samples and --sample-prefixes counts
(main returns 1 there, before any output is written). -/
def sampleConfig (loader : String → List String) (args : Args) :
    Option (List SampleList × List String) :=
  match args.samples with
  | none => some ([], [])
  | some s =>
    if s = "" then some ([], [])
    else
      if (splitComma s).length = (configPrefs args (splitComma s).length).length then
        some ((splitComma s).map (fun f => some (loader f)),
          configPrefs args (splitComma s).length)
      else none

/-- Source PlotAlleleFreqs (lines 32-73), reduced to its observable
success condition: it raises when every group's length distribution is
empty (min of an empty set, line 55) or when sampleprefixes is shorter
than samplelists (index past the end in the legend loop, line 65); the
rendering itself is an external side effect with no return value. -/
def plotSucceeds (rec : TRRecord) (lists : List SampleList)
    (sprefixes : List String) : Bool :=
  let ls := if lists = [] then [(none : SampleList)] else lists
  let ps := if lists = [] then ["sample"] else sprefixes
  let keys := ls.flatMap (fun sl => (lenObs rec sl).dedup)
  !keys.isEmpty && decide (ls.length ≤ ps.length)

/-- The per-statistic emitters of main's row loop (lines 494-528), in
source order: each entry pairs the statistic's enabling flag with the
function producing its fields (one per group) and the samplelists object
as seen afterwards.  Float statistics pass through format_nan_precision —
recorded here as the field text after its leading tab delimiter — while
afreq, acount and numcalled are written as plain strings. -/
def statSteps (log2Q : Rat → Rat) (binomTest : Rat → Nat → Nat → Rat)
    (args : Args) :
    List (Bool × (TRRecord → List SampleList → List String × List SampleList)) :=
  [ (args.thresh, fun rec s =>
      ((GetThresh rec s).map (fieldOfFloat args.precision), s)),
    (args.afreq, fun rec s => GetAFreqS rec s false args.use_length),
    (args.acount, fun rec s => GetAFreqS rec s true args.use_length),
    (args.hwep, fun rec s =>
      let r := GetHWEPS binomTest rec s args.use_length
      (r.1.map (fieldOfFloat args.precision), r.2)),
    (args.het, fun rec s =>
      let r := GetHetS rec s args.use_length
      (r.1.map (fieldOfFloat args.precision), r.2)),
    (args.entropy, fun rec s =>
      let r := GetEntropyS log2Q rec s args.use_length
      (r.1.map (fieldOfFloat args.precision), r.2)),
    (args.mean, fun rec s =>
      let r := GetMeanS rec s true
      (r.1.map (fieldOfFloat args.precision), r.2)),
    (args.mode, fun rec s =>
      let r := GetModeS rec s true
      (r.1.map (fieldOfFloat args.precision), r.2)),
    (args.var, fun rec s =>
      let r := GetVarianceS rec s true
      (r.1.map (fieldOfFloat args.precision), r.2)),
    (args.numcalled, fun rec s =>
      let r := GetNumSamplesS rec s
      (r.1.map toString, r.2)) ]

/-- Runs a list of flagged emitters in order over the shared samplelists
object, concatenating the fields of the enabled ones and returning the
final samplelists object. -/
def rowSteps (rec : TRRecord) :
    List (Bool × (TRRecord → List SampleList → List String × List SampleList)) →
    List SampleList → List String × List SampleList
  | [], s => ([], s)
  | e :: es, s =>
    if e.1 then
      let r := e.2 rec s
      let rest := rowSteps rec es r.2
      (r.1 ++ rest.1, rest.2)
    else rowSteps rec es s

/-- One record's statistic fields (main lines 494-528): the enabled
emitters run in source order over the shared samplelists object. -/
def rowStatFields (log2Q : Rat → Rat) (binomTest : Rat → Nat → Nat → Rat)
    (args : Args) (rec : TRRecord) (lists : List SampleList) :
    List String × List SampleList :=
  rowSteps rec (statSteps log2Q binomTest args) lists

/-- The flag and column name of every statistic, in the fixed source
order of the header build (main lines 455-464). -/
def statColumns (args : Args) : List (Bool × String) :=
  [(args.thresh, "thresh"), (args.afreq, "afreq"), (args.acount, "acount"),
   (args.hwep, "hwep"), (args.het, "het"), (args.entropy, "entropy"),
   (args.mean, "mean"), (args.mode, "mode"), (args.var, "var"),
   (args.numcalled, "numcalled")]

/-- The concatenated GetHeader blocks of the enabled statistics. -/
def hdrBlocks (sample_prefixes : List String) : List (Bool × String) → List String
  | [] => []
  | c :: cs =>
    (if c.1 then GetHeader c.2 sample_prefixes else []) ++ hdrBlocks sample_prefixes cs

/-- Source main lines 454-464: the header fields — coordinates, then one
GetHeader block per enabled statistic in the fixed source order. -/
def headerFields (args : Args) (sample_prefixes : List String) : List String :=
  ["chrom", "start", "end"] ++ hdrBlocks sample_prefixes (statColumns args)

/-- The three coordinate fields of a row (main lines 491-493): chromosome,
position, and position plus reference-allele length. -/
def coordFields (rec : TRRecord) : List String :=
  [rec.chrom, toString rec.pos,
   toString (rec.pos + (rec.refAllele.length : Int))]

/-- The outcome of a run: the exit status, the emitted lines (header
first) as field lists — each field is written after one tab delimiter, so
a line's text is the tab-intercalation of its fields — the number of plot
invocations, and whether an uncaught plotting exception ended the run. -/
structure RunResult where
  exitCode : Nat
  lines : List (List String)
  numPlots : Nat
  crashed : Bool
deriving DecidableEq

/-- The record loop of main (lines 484-529): per record, plot first when
requested and the counter has not passed MAXPLOTS (the comparison is the
source's num_plotted <= MAXPLOTS), then write the row.  A plotting
exception propagates: the rows already written stay (the file is closed
by the finally block) and no further record is processed. -/
def runLoop (log2Q : Rat → Rat) (binomTest : Rat → Nat → Nat → Rat)
    (args : Args) (sprefixes : List String) :
    List TRRecord → List SampleList → Nat → List (List String) →
    List (List String) × Nat × Bool
  | [], _, np, acc => (acc, np, false)
  | rec :: rest, lists, np, acc =>
    if args.plot_afreq && decide (np ≤ MAXPLOTS) && !plotSucceeds rec lists sprefixes then
      (acc, np, true)
    else
      runLoop log2Q binomTest args sprefixes rest
        (rowStatFields log2Q binomTest args rec lists).2
        (if args.plot_afreq && decide (np ≤ MAXPLOTS) then np + 1 else np)
        (acc ++ [coordFields rec ++ (rowStatFields log2Q binomTest args rec lists).1])

/-- Source main (lines 415-547), from sample loading onward.  The
file-system existence checks that precede it (lines 416-428) are pure
environment I/O and are not modeled; the loader parameter stands for the
sample-file reader.  Configuration errors (mismatched sample prefixes,
plotting to stdout) return exit status 1 before the header is written; an
uncaught plotting exception ends the interpreter with a nonzero status
after the already-buffered lines are flushed. -/
def runMain (log2Q : Rat → Rat) (binomTest : Rat → Nat → Nat → Rat)
    (loader : String → List String) (args : Args)
    (records : List TRRecord) : RunResult :=
  match sampleConfig loader args with
  | none => ⟨1, [], 0, false⟩
  | some cfg =>
    if args.out == "stdout" && args.plot_afreq then ⟨1, [], 0, false⟩
    else
      let r := runLoop log2Q binomTest args cfg.2 records cfg.1 0 []
      ⟨if r.2.2 then 1 else 0, headerFields args cfg.2 :: r.1, r.2.1, r.2.2⟩

/-! Concrete inputs used by witnesses and counterexamples. -/

/-- A record with one sample called with alleles of 2 and 3 repeat units. -/
def recA : TRRecord :=
  ⟨"chr1", 100, "ACACACAC", "AC",
   [("s1", some (⟨"ACAC", 2⟩, ⟨"ACACAC", 3⟩))]⟩

/-- A record whose only sample has no call: every distribution is empty. -/
def recEmptyCall : TRRecord := ⟨"chr1", 200, "ACAC", "AC", [("s1", none)]⟩

/-- A record with length counts three of 10 and one of 11. -/
def recB : TRRecord :=
  ⟨"chr2", 500, "AC", "AC",
   [("s1", some (⟨"A10", 10⟩, ⟨"A10", 10⟩)),
    ("s2", some (⟨"A10", 10⟩, ⟨"A11", 11⟩))]⟩

/-- Arguments requesting only the threshold statistic plus plotting. -/
def argsPlotThresh : Args :=
  ⟨none, none, true, false, false, false, false, false, false, false, false,
   false, false, true, 3, "f"⟩

/-- A trivial base-two-logarithm stand-in for witnesses. -/
def zQ : Rat → Rat := fun _ => 0

/-- A trivial binomial-test stand-in for witnesses. -/
def btQ : Rat → Nat → Nat → Rat := fun _ _ _ => 0

/-- A trivial sample-file loader for witnesses. -/
def ldQ : String → List String := fun _ => []

/-! Helper lemmas. -/

/-- The genotype-count values of a distribution sum to the number of
observations counted. -/
theorem keyCounts_sum {K : Type} [DecidableEq K] (obs : List K) :
    ((keyCounts obs).map Prod.snd).sum = obs.length := by
  simpa [keyCounts, List.map_map, Function.comp] using
    List.sum_map_count_dedup_eq_length obs

/-- Claim C9: the number-called statistic equals the count of fully-called
individuals in the group, in either representation mode, and GetNumSamples
returns that integer for every group — never a sentinel, with 0 for a
group with no calls. -/
theorem C9_numcalled_is_called_individuals (rec : TRRecord)
    (lists : List SampleList) (b : Bool) (sl : SampleList) :
    numCalledSum b rec sl = (calledPairs rec sl).length ∧
    (GetNumSamplesS rec lists).1 =
      (normLists lists).map (fun g => (calledPairs rec g).length) := by
  constructor
  · cases b <;>
      simp [numCalledSum, keyCounts_sum, genotypePairs]
  · show (normLists lists).map (fun g => numCalledSum true rec g) = _
    refine List.map_congr_left (fun g _ => ?_)
    simp [numCalledSum, keyCounts_sum, genotypePairs]

/-- Claim C10: GetMean, GetMode and GetVariance ignore their uselength
parameter; the computation is always over the length-collapsed allele
distribution. -/
theorem C10_mean_mode_var_ignore_uselength (rec : TRRecord)
    (lists : List SampleList) (b b' : Bool) :
    GetMeanS rec lists b = GetMeanS rec lists b' ∧
    GetModeS rec lists b = GetModeS rec lists b' ∧
    GetVarianceS rec lists b = GetVarianceS rec lists b' ∧
    (GetMeanS rec lists b).1 =
      (normLists lists).map (fun sl => getMeanU (freqsOf (lenObs rec sl))) ∧
    (GetModeS rec lists b).1 =
      (normLists lists).map (fun sl => getModeU (freqsOf (lenObs rec sl))) ∧
    (GetVarianceS rec lists b).1 =
      (normLists lists).map (fun sl => getVarianceU (freqsOf (lenObs rec sl))) :=
  ⟨rfl, rfl, rfl, rfl, rfl, rfl⟩

/-- A string containing a character another lacks differs from it. -/
theorem ne_of_mem_data {c : Char} {s t : String}
    (h1 : c ∈ s.data) (h2 : c ∉ t.data) : s ≠ t :=
  fun he => h2 (he ▸ h1)

/-- Fixed notation always carries a decimal point. -/
theorem point_mem_withPoint (a b c : String) :
    '.' ∈ (withPoint a b c).data := by
  simp [withPoint, String.data_append]

/-- Scientific notation always carries the letter e. -/
theorem e_mem_withExp (a b : String) (e : Int) :
    'e' ∈ (withExp a b e).data := by
  simp [withExp, String.data_append]

/-- Neither rendering branch can produce the bare word nan. -/
theorem pyGeneralCore_ne_nan (p : Nat) (s d : String) (e : Int) :
    pyGeneralCore p s d e ≠ "nan" := by
  unfold pyGeneralCore
  split
  · exact ne_of_mem_data (point_mem_withPoint _ _ _) (by decide)
  · exact ne_of_mem_data (e_mem_withExp _ _ _) (by decide)

/-- No numeric rendering is the bare word nan. -/
theorem pyGeneral_ne_nan (p : Nat) (q : Rat) : pyGeneral p q ≠ "nan" := by
  unfold pyGeneral
  split
  · decide
  · exact pyGeneralCore_ne_nan _ _ _ _

/-- Claim C2, corrected: the NaN sentinel renders as a tab then exactly
the bare word nan — a fixed literal, and one no numeric value renders as,
but it is the word nan itself. -/
theorem C2_nan_marker_is_bare_nan (p : Nat) :
    format_nan_precision p none = "\tnan" ∧
    ∀ v : Rat, format_nan_precision p (some v) ≠ format_nan_precision p none := by
  refine ⟨rfl, fun v he => ?_⟩
  have hd := congrArg String.data he
  simp only [format_nan_precision, String.data_append] at hd
  have : pyGeneral p v = "nan" := by
    apply String.ext
    have : ("\t" : String).data ++ (pyGeneral p v).data =
        ("\t" : String).data ++ ("nan" : String).data := by
      simpa [String.data_append] using hd
    exact List.append_cancel_left this
  exact pyGeneral_ne_nan p v this

/-- Claim C2, counterexample to the claim as stated: the field text of the
rendered sentinel (what stands after the tab delimiter) is exactly the
bare word nan. -/
theorem C2_counterexample_field_is_nan :
    format_nan_precision 3 none = "\t" ++ "nan" := rfl

/-- Claim C2 witness: the corrected statement at precision 3 and value
one half. -/
theorem C2_nan_marker_witness :
    format_nan_precision 3 none = "\tnan" ∧
    format_nan_precision 3 (some (Rat.divInt 1 2)) ≠ format_nan_precision 3 none :=
  ⟨(C2_nan_marker_is_bare_nan 3).1, (C2_nan_marker_is_bare_nan 3).2 (Rat.divInt 1 2)⟩

/-- Claim C3, counterexample to the claim as stated: at the default
precision 3 the value 10.5 renders with one digit after the decimal
point, not three. -/
theorem C3_counterexample_not_three_decimals :
    format_nan_precision 3 (some (Rat.divInt 21 2)) = "\t10.5" ∧
    ("\t10.5" : String) ≠ "\t10.500" := by
  constructor
  · rfl
  · decide

/-- Claim C3, corrected: the precision configures the number of
significant digits of CPython bare-precision general formatting, not
decimal places: 10.5 renders as 10.5 at precision 3 and 5 alike, 100
needs scientific notation at precision 3, and trailing zeros are
stripped. -/
theorem C3_significant_digit_formatting :
    format_nan_precision 3 (some (Rat.divInt 21 2)) = "\t10.5" ∧
    format_nan_precision 5 (some (Rat.divInt 21 2)) = "\t10.5" ∧
    format_nan_precision 3 (some (Rat.divInt 1 8)) = "\t0.125" ∧
    format_nan_precision 3 (some 100) = "\t1e+02" ∧
    format_nan_precision 2 (some (Rat.divInt 21 2)) = "\t1e+01" := by
  refine ⟨by decide, by decide, by decide, by decide, by decide⟩

/-- Claim C7: when the counts of explicitly supplied sample files and
sample-prefix labels differ, main returns exit status 1 before any locus
is processed: no header, no rows, no plots. -/
theorem C7_sample_mismatch_fails_before_output
    (log2Q : Rat → Rat) (binomTest : Rat → Nat → Nat → Rat)
    (loader : String → List String) (args : Args) (records : List TRRecord)
    (s p : String) (hs : args.samples = some s) (hs0 : s ≠ "")
    (hp : args.sample_prefixes = some p) (hp0 : p ≠ "")
    (hm : (splitComma s).length ≠ (splitComma p).length) :
    runMain log2Q binomTest loader args records = ⟨1, [], 0, false⟩ := by
  unfold runMain sampleConfig configPrefs
  rw [hs, hp]
  simp [hs0, hp0, hm]

/-- Claim C7 witness: two sample files against one label. -/
theorem C7_sample_mismatch_witness :
    runMain zQ btQ ldQ
      ⟨some "a,b", some "x", true, false, false, false, false, false, false,
       false, false, false, false, false, 3, "f"⟩ [recA] =
      ⟨1, [], 0, false⟩ :=
  C7_sample_mismatch_fails_before_output zQ btQ ldQ _ [recA] "a,b" "x"
    rfl (by decide) rfl (by decide) (by decide)

/-- Claim C1, code-bug evaluation: MAXPLOTS is 10, yet with plotting
requested and eleven records each having called alleles, all eleven are
plotted — the guard num_plotted <= MAXPLOTS still admits an eleventh plot
invocation — while every record still emits its full row (eleven rows
after the header, no crash). -/
theorem C1_cap_exceeded_eleven_plots :
    MAXPLOTS = 10 ∧
    (runMain zQ btQ ldQ argsPlotThresh (List.replicate 11 recA)).numPlots = 11 ∧
    (runMain zQ btQ ldQ argsPlotThresh (List.replicate 11 recA)).crashed = false ∧
    (runMain zQ btQ ldQ argsPlotThresh (List.replicate 11 recA)).lines.length = 12 ∧
    (runMain zQ btQ ldQ argsPlotThresh (List.replicate 12 recA)).numPlots = 11 :=
  ⟨rfl, by decide, by decide, by decide, by decide⟩

/-- Claim C5, counterexample to the claim as stated: a plotting failure
at the first record (no group has any called allele) ends the run with
only the header written — the failing locus's row and the following
record's row are both lost. -/
theorem C5_counterexample_plot_failure_kills_run :
    runMain zQ btQ ldQ argsPlotThresh [recEmptyCall, recA] =
      ⟨1, [["chrom", "start", "end", "thresh"]], 0, true⟩ := by decide

/-- Claim C5, corrected: an exception raised while plotting a locus's
allele frequencies propagates out of main: that locus's statistic row is
not emitted, no later locus is processed, and the run ends with a nonzero
status (here shown for a failure at the first record, where only the
header line survives). -/
theorem C5_amended_plot_failure_aborts
    (log2Q : Rat → Rat) (binomTest : Rat → Nat → Nat → Rat)
    (loader : String → List String) (args : Args) (rec : TRRecord)
    (rest : List TRRecord) (cfg : List SampleList × List String)
    (hc : sampleConfig loader args = some cfg)
    (hstd : args.out ≠ "stdout")
    (hplot : args.plot_afreq = true)
    (hfail : plotSucceeds rec cfg.1 cfg.2 = false) :
    runMain log2Q binomTest loader args (rec :: rest) =
      ⟨1, [headerFields args cfg.2], 0, true⟩ := by
  unfold runMain
  rw [hc]
  have h1 : (args.out == "stdout") = false := by
    simpa using hstd
  simp [h1, hplot, runLoop, MAXPLOTS, hfail]

/-- Claim C5 witness: the corrected statement at a concrete record whose
only sample has no call. -/
theorem C5_amended_witness :
    runMain zQ btQ ldQ argsPlotThresh [recEmptyCall] =
      ⟨1, [headerFields argsPlotThresh []], 0, true⟩ :=
  C5_amended_plot_failure_aborts zQ btQ ldQ argsPlotThresh recEmptyCall []
    ([], []) rfl (by decide) rfl (by decide)

/-- Claim C6, counterexample to the claim as stated: GetAFreq run with an
empty samplelists hands back the list with None appended — the caller's
list object is no longer the empty list it passed. -/
theorem C6_counterexample_empty_list_mutated :
    (GetAFreqS recA [] false true).2 = [none] ∧
    ([none] : List SampleList) ≠ ([] : List SampleList) :=
  ⟨rfl, by decide⟩

/-- Claim C6, corrected: a non-empty samplelists is returned unchanged by
every statistic computer, while an empty one is mutated once into the
single implicit all-samples group; the values computed for the mutated
list equal those for the empty list, and GetThresh handles the empty list
without mutation to the same effect, so every locus still sees an
effectively identical group list. -/
theorem C6_amended_mutation_is_normalization
    (log2Q : Rat → Rat) (binomTest : Rat → Nat → Nat → Rat) (rec : TRRecord)
    (lists : List SampleList) (cnt ul : Bool) (h : lists ≠ []) :
    (GetAFreqS rec lists cnt ul).2 = lists ∧
    (GetHWEPS binomTest rec lists ul).2 = lists ∧
    (GetHetS rec lists ul).2 = lists ∧
    (GetEntropyS log2Q rec lists ul).2 = lists ∧
    (GetMeanS rec lists ul).2 = lists ∧
    (GetModeS rec lists ul).2 = lists ∧
    (GetVarianceS rec lists ul).2 = lists ∧
    (GetNumSamplesS rec lists).2 = lists ∧
    (GetAFreqS rec [] cnt ul).2 = [none] ∧
    (GetAFreqS rec ([] : List SampleList) cnt ul).1 =
      (GetAFreqS rec [none] cnt ul).1 ∧
    GetThresh rec [] = GetThresh rec [none] := by
  have hn : normLists lists = lists := by simp [normLists, h]
  exact ⟨hn, hn, hn, hn, hn, hn, hn, hn, rfl, rfl, by simp [GetThresh]⟩

/-- Claim C6 witness: the corrected statement at a concrete record and a
one-group list. -/
theorem C6_amended_witness :
    (GetAFreqS recA [some ["s1"]] false true).2 = [some ["s1"]] :=
  (C6_amended_mutation_is_normalization zQ btQ recA [some ["s1"]] false true
    (by decide)).1

/-- The frequency-table field as claim C4 words it: identical to the
source rendering except that the frequency precision is the configured
one rather than a hard-coded three. -/
def specFreqFieldLen (precision : Nat) (rec : TRRecord) (sl : SampleList) :
    String :=
  renderTable showPyFloat
    (fun c n => formatFixedF precision (Rat.divInt (c : Int) (n : Int)))
    (lenObs rec sl)

/-- Claim C4, counterexample to the claim as stated: at configured
precision 5, the source still renders frequencies with three decimals —
the precision of GetAFreq is hard-coded, not the configured one. -/
theorem C4_counterexample_precision_hardcoded :
    afreqField recB none false true = "10.0:0.750,11.0:0.250" ∧
    specFreqFieldLen 5 recB none = "10.0:0.75000,11.0:0.25000" ∧
    afreqField recB none false true ≠ specFreqFieldLen 5 recB none :=
  ⟨by decide, by decide, by decide⟩

/-- Claim C4, corrected: GetAFreq renders, per group, the distribution's
alleles as allele-colon-value pairs joined by commas over an ascending
sorted enumeration of exactly the observed alleles (positive counts only,
since only observed keys are counted), with frequencies always at the
fixed three-decimal precision, and the single dot marker for an empty
distribution. -/
theorem C4_amended_table_shape {K : Type} [LinearOrder K]
    (shw : K → String) (valOf : Nat → Nat → String) (obs : List K)
    (rec : TRRecord) (lists : List SampleList) (cnt ul : Bool)
    (h : obs ≠ []) :
    (GetAFreqS rec lists cnt ul).1 =
      (normLists lists).map (fun sl => afreqField rec sl cnt ul) ∧
    (∀ sl, afreqField rec sl false true =
      renderTable showPyFloat
        (fun c n => formatFixedF 3 (Rat.divInt (c : Int) (n : Int)))
        (lenObs rec sl)) ∧
    (∀ sl, afreqField rec sl false false =
      renderTable (fun s => s)
        (fun c n => formatFixedF 3 (Rat.divInt (c : Int) (n : Int)))
        (seqObs rec sl)) ∧
    renderTable shw valOf ([] : List K) = "." ∧
    ∃ ks : List K, List.Sorted (fun a b => a ≤ b) ks ∧
      ks.Perm obs.dedup ∧
      renderTable shw valOf obs =
        String.intercalate ","
          (ks.map (fun k => shw k ++ ":" ++ valOf (obs.count k) obs.length)) := by
  refine ⟨rfl, fun sl => rfl, fun sl => rfl, by simp [renderTable], ?_⟩
  refine ⟨List.insertionSort (fun a b => a ≤ b) obs.dedup,
    List.sorted_insertionSort _ _, List.perm_insertionSort _ _, ?_⟩
  rw [renderTable, if_neg (by simpa [List.dedup_eq_nil] using h)]

/-- Claim C4 witness: the corrected statement applied at a concrete
record, projected to its hard-coded-precision conjunct instance. -/
theorem C4_amended_witness :
    (GetAFreqS recB [] false true).1 =
      (normLists []).map (fun sl => afreqField recB sl false true) :=
  (C4_amended_table_shape showPyFloat (fun c _ => toString c)
    (lenObs recB none) recB [] false true (by decide)).1

/-- The number of columns of one statistic block: one column per sample
group, or a single unsuffixed column when no groups were requested. -/
def groupsOf (sample_prefixes : List String) : Nat :=
  if sample_prefixes.length = 0 then 1 else sample_prefixes.length

/-- Each header block has one column per group. -/
theorem GetHeader_length (h : String) (sample_prefixes : List String) :
    (GetHeader h sample_prefixes).length = groupsOf sample_prefixes := by
  unfold GetHeader groupsOf
  split <;> simp_all

/-- Normalization is idempotent. -/
theorem normLists_idem (lists : List SampleList) :
    normLists (normLists lists) = normLists lists := by
  cases lists <;> simp [normLists]

/-- A group list and a label list of equal lengths yield the same column
multiplicity. -/
theorem normLists_length_groupsOf (lists : List SampleList)
    (sample_prefixes : List String)
    (h : lists.length = sample_prefixes.length) :
    (normLists lists).length = groupsOf sample_prefixes := by
  cases lists with
  | nil => simp [normLists, groupsOf, ← h]
  | cons x xs => simp [normLists, groupsOf, ← h]

/-- GetThresh emits one value per group. -/
theorem GetThresh_length (rec : TRRecord) (lists : List SampleList) :
    (GetThresh rec lists).length = (normLists lists).length := by
  cases lists <;> simp [GetThresh, normLists]

/-- What the header/row alignment argument needs of one emitter paired
with its header column: the flags agree, the emitter produces one field
per group, and it can only normalize the shared samplelists. -/
def StepOk (st : Bool × (TRRecord → List SampleList → List String × List SampleList))
    (c : Bool × String) : Prop :=
  st.1 = c.1 ∧ ∀ rec s, (st.2 rec s).1.length = (normLists s).length ∧
    normLists (st.2 rec s).2 = normLists s

/-- Every emitter of the source's row loop is aligned with its header
column. -/
theorem statSteps_ok (log2Q : Rat → Rat) (binomTest : Rat → Nat → Nat → Rat)
    (args : Args) :
    List.Forall₂ StepOk (statSteps log2Q binomTest args) (statColumns args) := by
  refine .cons ⟨rfl, fun rec s => ?_⟩ (.cons ⟨rfl, fun rec s => ?_⟩
    (.cons ⟨rfl, fun rec s => ?_⟩ (.cons ⟨rfl, fun rec s => ?_⟩
    (.cons ⟨rfl, fun rec s => ?_⟩ (.cons ⟨rfl, fun rec s => ?_⟩
    (.cons ⟨rfl, fun rec s => ?_⟩ (.cons ⟨rfl, fun rec s => ?_⟩
    (.cons ⟨rfl, fun rec s => ?_⟩ (.cons ⟨rfl, fun rec s => ?_⟩ .nil)))))))))
  · exact ⟨by simp [GetThresh_length], rfl⟩
  · exact ⟨by simp [GetAFreqS], normLists_idem s⟩
  · exact ⟨by simp [GetAFreqS], normLists_idem s⟩
  · exact ⟨by simp [GetHWEPS], normLists_idem s⟩
  · exact ⟨by simp [GetHetS], normLists_idem s⟩
  · exact ⟨by simp [GetEntropyS], normLists_idem s⟩
  · exact ⟨by simp [GetMeanS], normLists_idem s⟩
  · exact ⟨by simp [GetModeS], normLists_idem s⟩
  · exact ⟨by simp [GetVarianceS], normLists_idem s⟩
  · exact ⟨by simp [GetNumSamplesS], normLists_idem s⟩

/-- The alignment induction: aligned emitters produce exactly as many row
fields as the enabled header blocks have columns, and the samplelists
object keeps its normalization. -/
theorem rowSteps_hdrBlocks_length {sample_prefixes : List String}
    {steps : List (Bool × (TRRecord → List SampleList → List String × List SampleList))}
    {cols : List (Bool × String)} (H : List.Forall₂ StepOk steps cols) :
    ∀ rec s, (normLists s).length = groupsOf sample_prefixes →
      (rowSteps rec steps s).1.length =
        (hdrBlocks sample_prefixes cols).length ∧
      normLists (rowSteps rec steps s).2 = normLists s := by
  induction H with
  | nil => exact fun rec s _ => ⟨rfl, rfl⟩
  | @cons st c sts cs hP _ ih =>
    intro rec s hs
    obtain ⟨hflag, hstep⟩ := hP
    by_cases hb : st.1
    · have hcb : c.1 = true := hflag ▸ hb
      obtain ⟨hlen, hnorm⟩ := hstep rec s
      have hs2 : (normLists (st.2 rec s).2).length = groupsOf sample_prefixes := by
        rw [hnorm, hs]
      obtain ⟨ih1, ih2⟩ := ih rec (st.2 rec s).2 hs2
      constructor
      · simp only [rowSteps, hb, if_true, hdrBlocks, hcb, List.length_append,
          List.length_append, ih1, hlen, hs, GetHeader_length]
      · simp only [rowSteps, hb, if_true]
        rw [ih2, hnorm]
    · have hcb : c.1 = false := by
        rw [← hflag]; exact Bool.not_eq_true st.1 ▸ by simpa using hb
      obtain ⟨ih1, ih2⟩ := ih rec s hs
      constructor
      · simp only [rowSteps, hb, if_false, hdrBlocks, hcb, List.length_append]
        simpa using ih1
      · simpa [rowSteps, hb] using ih2

/-- If the sample configuration loads, the group list and label list have
equal lengths. -/
theorem sampleConfig_lengths (loader : String → List String) (args : Args)
    (cfg : List SampleList × List String)
    (hc : sampleConfig loader args = some cfg) :
    cfg.1.length = cfg.2.length := by
  unfold sampleConfig at hc
  split at hc
  · cases hc; rfl
  · split at hc
    · cases hc; rfl
    · split at hc
      · rename_i hlen
        cases hc
        simpa using hlen
      · exact absurd hc (by simp)


/-- The rows accumulated by the record loop all have the header's width. -/
theorem runLoop_lines_length (log2Q : Rat → Rat)
    (binomTest : Rat → Nat → Nat → Rat) (args : Args)
    (sample_prefixes : List String) :
    ∀ (records : List TRRecord) (s : List SampleList) (np : Nat)
      (acc : List (List String)),
      (normLists s).length = groupsOf sample_prefixes →
      (∀ ln ∈ acc, ln.length = (headerFields args sample_prefixes).length) →
      ∀ ln ∈ (runLoop log2Q binomTest args sample_prefixes records s np acc).1,
        ln.length = (headerFields args sample_prefixes).length := by
  intro records
  induction records with
  | nil => intro s np acc _ hacc ln hln; exact hacc ln hln
  | cons rec rest ih =>
    intro s np acc hs hacc ln hln
    rw [runLoop] at hln
    split at hln
    · exact hacc ln hln
    · obtain ⟨hrow, hnorm⟩ :=
        rowSteps_hdrBlocks_length (statSteps_ok log2Q binomTest args) rec s hs
      refine ih ((rowStatFields log2Q binomTest args rec s).2) _ _ ?_ ?_ ln hln
      · show (normLists (rowSteps rec (statSteps log2Q binomTest args) s).2).length
          = groupsOf sample_prefixes
        rw [hnorm]; exact hs
      · intro l hl
        rcases List.mem_append.mp hl with h1 | h1
        · exact hacc l h1
        · rcases List.mem_singleton.mp h1 with rfl
          simpa [headerFields, coordFields, rowStatFields] using hrow

/-- Claim C8: the header is chrom, start, end followed by one GetHeader
block per enabled statistic in the fixed source order (each block one
column per group, unsuffixed when no groups were requested), and every
emitted line — the header and every data row main writes — has exactly
one field per header column. -/
theorem C8_header_row_alignment (log2Q : Rat → Rat)
    (binomTest : Rat → Nat → Nat → Rat) (loader : String → List String)
    (args : Args) (rec : TRRecord) (lists : List SampleList)
    (sample_prefixes : List String) (records : List TRRecord)
    (h : lists.length = sample_prefixes.length) :
    (coordFields rec ++ (rowStatFields log2Q binomTest args rec lists).1).length
      = (headerFields args sample_prefixes).length ∧
    headerFields args sample_prefixes =
      ["chrom", "start", "end"]
      ++ (if args.thresh then GetHeader "thresh" sample_prefixes else [])
      ++ (if args.afreq then GetHeader "afreq" sample_prefixes else [])
      ++ (if args.acount then GetHeader "acount" sample_prefixes else [])
      ++ (if args.hwep then GetHeader "hwep" sample_prefixes else [])
      ++ (if args.het then GetHeader "het" sample_prefixes else [])
      ++ (if args.entropy then GetHeader "entropy" sample_prefixes else [])
      ++ (if args.mean then GetHeader "mean" sample_prefixes else [])
      ++ (if args.mode then GetHeader "mode" sample_prefixes else [])
      ++ (if args.var then GetHeader "var" sample_prefixes else [])
      ++ (if args.numcalled then GetHeader "numcalled" sample_prefixes else []) ∧
    (∀ cfg, sampleConfig loader args = some cfg →
      ∀ ln ∈ (runMain log2Q binomTest loader args records).lines,
        ln.length = (headerFields args cfg.2).length) := by
  refine ⟨?_, ?_, ?_⟩
  · obtain ⟨hrow, _⟩ :=
      rowSteps_hdrBlocks_length (statSteps_ok log2Q binomTest args) rec lists
        (normLists_length_groupsOf lists sample_prefixes h)
    simpa [headerFields, coordFields, rowStatFields] using hrow
  · simp [headerFields, statColumns, hdrBlocks, List.append_assoc]
  · intro cfg hc ln hln
    unfold runMain at hln
    split at hln
    · rename_i heq
      rw [hc] at heq
      simp at heq
    · rename_i cfg' heq
      rw [hc] at heq
      obtain rfl : cfg = cfg' := by injection heq
      by_cases hso : (args.out == "stdout" && args.plot_afreq) = true
      · rw [if_pos hso] at hln
        simp at hln
      · rw [if_neg hso] at hln
        simp only [List.mem_cons] at hln
        rcases hln with rfl | hln
        · rfl
        · refine runLoop_lines_length log2Q binomTest args cfg.2 records cfg.1 0 []
            ?_ (by simp) ln hln
          exact normLists_length_groupsOf cfg.1 cfg.2
            (sampleConfig_lengths loader args cfg hc)

/-- Claim C8 witness: the alignment at a concrete record with no sample
groups and only the threshold statistic enabled. -/
theorem C8_alignment_witness :
    (coordFields recA ++ (rowStatFields zQ btQ argsPlotThresh recA []).1).length
      = (headerFields argsPlotThresh []).length :=
  (C8_header_row_alignment zQ btQ ldQ argsPlotThresh recA [] [] [] rfl).1

end StatSTR






